import Mathlib

/-!
Verification development for the Mercury GPU particle fluid system.

The definitions below are a shallow embedding of the particle simulation
step (src/shaders/particles/particle_update.vert.glsl), the ping-pong
buffer bookkeeping and attraction ramp (src/core/ParticleSystem.js,
src/main.js), the shape-target texture encoding and decoding
(src/core/ShapeManager.js and getTargetPosition in the update shader),
and the normal-reconstruction pass
(src/shaders/fluid/normal_reconstruction.frag.glsl).

GLSL float arithmetic is embedded as real-number arithmetic; the CPU-side
rational quantities (attraction ramp, texture encoding) are embedded over
the rationals so concrete instances evaluate.  The simplex noise value
feeding the (disabled) turbulence term is passed to the step as an
explicit parameter, since the shader multiplies it by the constant 0.0.
-/

namespace Mercury

/-- Three-component float vector, as used throughout the GLSL shaders. -/
structure Vec3 where
  x : ℝ
  y : ℝ
  z : ℝ

/-- Four-component float vector (touch points are vec4: xyz position, w strength). -/
structure Vec4 where
  x : ℝ
  y : ℝ
  z : ℝ
  w : ℝ

instance : Zero Vec3 := ⟨⟨0, 0, 0⟩⟩

instance : Add Vec3 := ⟨fun a b => ⟨a.x + b.x, a.y + b.y, a.z + b.z⟩⟩

instance : Sub Vec3 := ⟨fun a b => ⟨a.x - b.x, a.y - b.y, a.z - b.z⟩⟩

instance : Neg Vec3 := ⟨fun a => ⟨-a.x, -a.y, -a.z⟩⟩

instance : SMul ℝ Vec3 := ⟨fun c a => ⟨c * a.x, c * a.y, c * a.z⟩⟩

/-- Squared euclidean norm of a vector. -/
noncomputable def normSq (v : Vec3) : ℝ := v.x * v.x + v.y * v.y + v.z * v.z

/-- GLSL length: euclidean norm. -/
noncomputable def length (v : Vec3) : ℝ := Real.sqrt (normSq v)

/-- GLSL normalize: the vector divided by its length. -/
noncomputable def normalize (v : Vec3) : Vec3 :=
  ⟨v.x / length v, v.y / length v, v.z / length v⟩

/-- GLSL cross product. -/
noncomputable def cross (a b : Vec3) : Vec3 :=
  ⟨a.y * b.z - a.z * b.y, a.z * b.x - a.x * b.z, a.x * b.y - a.y * b.x⟩

/-- Uniform inputs of one invocation of the particle update shader, together
with the resolved shape-target position for this particle (the value of
getTargetPosition(aId), the texture lookup being modelled separately). -/
structure Uniforms where
  deltaTime : ℝ
  gravity : Vec3
  bounds : Vec3
  damping : ℝ
  bounce : ℝ
  touchPoints : Fin 5 → Vec4
  targetPos : Vec3
  shapeAttraction : ℝ

/-- Gravity force: skipped entirely unless length(uGravity) > 0.001, else
velocity += normalize(uGravity) * 9.81 * uDeltaTime. -/
noncomputable def applyGravity (u : Uniforms) (v : Vec3) : Vec3 :=
  if length u.gravity > 0.001 then
    v + (9.81 * u.deltaTime) • normalize u.gravity
  else v

/-- Shape attraction: only when uShapeAttraction > 0 and the distance to the
target exceeds 0.001; velocity += normalize(toTarget) * (uShapeAttraction * 10) * dt. -/
noncomputable def applyAttraction (u : Uniforms) (p v : Vec3) : Vec3 :=
  if u.shapeAttraction > 0 then
    let toTarget := u.targetPos - p
    let dist := length toTarget
    if dist > 0.001 then
      v + (u.shapeAttraction * 10 * u.deltaTime) • normalize toTarget
    else v
  else v

/-- Contribution of touch slot i: inverse-square magnetism with the divisor
offset by 0.1, guarded by strength > 0 and distance > 0.001. -/
noncomputable def touchContrib (u : Uniforms) (p : Vec3) (i : Fin 5) : Vec3 :=
  let tp := u.touchPoints i
  let touchPos : Vec3 := ⟨tp.x, tp.y, tp.z⟩
  let touchStrength := tp.w
  if touchStrength > 0 then
    let toTouch := touchPos - p
    let dist := length toTouch
    if dist > 0.001 then
      let force := touchStrength * 2 / (dist * dist + 0.1)
      (force * u.deltaTime) • normalize toTouch
    else 0
  else 0

/-- The for-loop over the five touch slots, accumulating into velocity. -/
noncomputable def applyTouches (u : Uniforms) (p v : Vec3) : Vec3 :=
  (([0, 1, 2, 3, 4] : List (Fin 5))).foldl (fun acc i => acc + touchContrib u p i) v

/-- Turbulence term: the simplex-noise vector is scaled by the constant 0.0
(the shader comment reads "Turbulence disabled") times uDeltaTime. -/
noncomputable def applyTurbulence (u : Uniforms) (v noise : Vec3) : Vec3 :=
  v + (0.0 * u.deltaTime) • noise

/-- Velocity after all force accumulation and global damping. -/
noncomputable def updateVelocity (u : Uniforms) (p v noise : Vec3) : Vec3 :=
  u.damping • applyTurbulence u (applyTouches u p (applyAttraction u p (applyGravity u v))) noise

/-- One axis of the boundary collision: clamp the position to the box and set
the velocity component to the inward-pointing bounced magnitude. -/
noncomputable def clampAxis (hb bounce p v : ℝ) : ℝ × ℝ :=
  if p < -hb then (-hb, |v| * bounce)
  else if p > hb then (hb, -|v| * bounce)
  else (p, v)

/-- Boundary collision against the box [-uBounds/2, uBounds/2] on each axis. -/
noncomputable def applyBounds (u : Uniforms) (p v : Vec3) : Vec3 × Vec3 :=
  let hb : Vec3 := (0.5 : ℝ) • u.bounds
  let rx := clampAxis hb.x u.bounce p.x v.x
  let ry := clampAxis hb.y u.bounce p.y v.y
  let rz := clampAxis hb.z u.bounce p.z v.z
  (⟨rx.1, ry.1, rz.1⟩, ⟨rx.2, ry.2, rz.2⟩)

/-- One full invocation of the particle update shader main(): force
accumulation, damping, Euler integration, boundary collision. -/
noncomputable def step (u : Uniforms) (p v noise : Vec3) : Vec3 × Vec3 :=
  let vel := updateVelocity u p v noise
  let pos := p + u.deltaTime • vel
  applyBounds u pos vel

/-- Uniform values of the end-to-end numeric scenario: bounds (1,1,1),
bounce 0.5, gravity (0,-9.81,0), dt 0.1, no damping, attraction 0,
all touch strengths 0. -/
noncomputable def scenarioUniforms : Uniforms :=
  ⟨0.1, ⟨0, -9.81, 0⟩, ⟨1, 1, 1⟩, 1, 0.5, fun _ => ⟨0, 0, 0, 0⟩, ⟨0, 0, 0⟩, 0⟩

/-- Unclamped position after Euler integration, before boundary collision. -/
noncomputable def unclampedPos (u : Uniforms) (p v noise : Vec3) : Vec3 :=
  p + u.deltaTime • updateVelocity u p v noise

/-- Membership of every position component in the box [-bounds/2, bounds/2]. -/
def inBounds (B pos : Vec3) : Prop :=
  (-(0.5 * B.x) ≤ pos.x ∧ pos.x ≤ 0.5 * B.x) ∧
  (-(0.5 * B.y) ≤ pos.y ∧ pos.y ≤ 0.5 * B.y) ∧
  (-(0.5 * B.z) ≤ pos.z ∧ pos.z ≤ 0.5 * B.z)

/-- Iterated simulation steps; step k consumes the k-th uniforms and noise. -/
noncomputable def iterateSteps (us : ℕ → Uniforms) (noises : ℕ → Vec3) :
    ℕ → Vec3 × Vec3 → Vec3 × Vec3
  | 0, st => st
  | n + 1, st =>
      step (us n) (iterateSteps us noises n st).1 (iterateSteps us noises n st).2 (noises n)

/-- Uniform values of the C4 counterexample: no forces, no damping, dt 1,
bounds (1,1,1), bounce 0.5. -/
noncomputable def cexUniforms : Uniforms :=
  ⟨1, 0, ⟨1, 1, 1⟩, 1, 0.5, fun _ => ⟨0, 0, 0, 0⟩, 0, 0⟩

/-- Uniform values of the C5 witness: no forces, damping 0.5, bounce 0.5. -/
noncomputable def calmUniforms : Uniforms :=
  ⟨1, 0, ⟨1, 1, 1⟩, 0.5, 0.5, fun _ => ⟨0, 0, 0, 0⟩, 0, 0⟩

/-- Uniform values of the C5 counterexample: negative damping -2 (which
satisfies the claim's only damping hypothesis, damping < 1). -/
noncomputable def dampUniforms : Uniforms :=
  ⟨1, 0, ⟨100, 100, 100⟩, -2, 0.5, fun _ => ⟨0, 0, 0, 0⟩, 0, 0⟩

/-- Normalize with an explicit zero-length check: none models the NaN that
GLSL normalize would produce on a zero vector. -/
noncomputable def normalizeChecked (v : Vec3) : Option Vec3 :=
  if length v = 0 then none else some (normalize v)

/-- Division with an explicit zero-divisor check: none models Inf/NaN. -/
noncomputable def divChecked (a b : ℝ) : Option ℝ :=
  if b = 0 then none else some (a / b)

/-- Gravity force with the normalize guarded. -/
noncomputable def applyGravityChecked (u : Uniforms) (v : Vec3) : Option Vec3 :=
  if length u.gravity > 0.001 then
    (normalizeChecked u.gravity).map (fun n => v + (9.81 * u.deltaTime) • n)
  else some v

/-- Shape attraction with the normalize guarded. -/
noncomputable def applyAttractionChecked (u : Uniforms) (p v : Vec3) : Option Vec3 :=
  if u.shapeAttraction > 0 then
    let toTarget := u.targetPos - p
    let dist := length toTarget
    if dist > 0.001 then
      (normalizeChecked toTarget).map
        (fun n => v + (u.shapeAttraction * 10 * u.deltaTime) • n)
    else some v
  else some v

/-- Touch contribution with the division and the normalize guarded. -/
noncomputable def touchContribChecked (u : Uniforms) (p : Vec3) (i : Fin 5) : Option Vec3 :=
  let tp := u.touchPoints i
  let touchPos : Vec3 := ⟨tp.x, tp.y, tp.z⟩
  let touchStrength := tp.w
  if touchStrength > 0 then
    let toTouch := touchPos - p
    let dist := length toTouch
    if dist > 0.001 then
      (divChecked (touchStrength * 2) (dist * dist + 0.1)).bind (fun force =>
        (normalizeChecked toTouch).map (fun n => (force * u.deltaTime) • n))
    else some 0
  else some 0

/-- Touch loop in the checked variant. -/
noncomputable def applyTouchesChecked (u : Uniforms) (p v : Vec3) : Option Vec3 :=
  (([0, 1, 2, 3, 4] : List (Fin 5))).foldl
    (fun acc i => acc.bind (fun w => (touchContribChecked u p i).map (fun c => w + c)))
    (some v)

/-- The whole simulation step with every division and normalize checked. -/
noncomputable def stepChecked (u : Uniforms) (p v noise : Vec3) : Option (Vec3 × Vec3) :=
  (applyGravityChecked u v).bind (fun v1 =>
    (applyAttractionChecked u p v1).bind (fun v2 =>
      (applyTouchesChecked u p v2).map (fun v3 =>
        let vel := u.damping • applyTurbulence u v3 noise
        let pos := p + u.deltaTime • vel
        applyBounds u pos vel)))

/-- The two particle buffers of the ping-pong pair in ParticleSystem. -/
inductive ParticleBuffer
  | A
  | B
deriving DecidableEq

/-- Buffer read by ParticleSystem.update (and returned by getCurrentBuffer):
bufferA when currentBuffer = 0, bufferB otherwise. -/
def readBuffer (currentBuffer : ℤ) : ParticleBuffer :=
  if currentBuffer = 0 then ParticleBuffer.A else ParticleBuffer.B

/-- Buffer written through transform feedback by ParticleSystem.update:
bufferB when currentBuffer = 0, bufferA otherwise. -/
def writeBuffer (currentBuffer : ℤ) : ParticleBuffer :=
  if currentBuffer = 0 then ParticleBuffer.B else ParticleBuffer.A

/-- Selector update at the end of ParticleSystem.update:
currentBuffer = 1 - currentBuffer. -/
def flipBuffer (currentBuffer : ℤ) : ℤ := 1 - currentBuffer

/-- ParticleSystem.setShapeAttraction: clamps the strength to [0, 1]. -/
def setShapeAttraction (strength : ℚ) : ℚ := max 0 (min 1 strength)

/-- Target attraction strength configured in MercuryApp: 0.8. -/
def shapeAttractionTarget : ℚ := 0.8

/-- One animate() frame of the attraction ramp: while below the target, add
deltaTime * 0.5 and clamp to the target (then setShapeAttraction clamps
to [0, 1]). -/
def animateAttraction (attraction dt : ℚ) : ℚ :=
  if attraction < shapeAttractionTarget then
    setShapeAttraction (min (attraction + dt * 0.5) shapeAttractionTarget)
  else attraction

/-- Attraction value after a sequence of frames with the given delta times. -/
def rampAttraction (dts : List ℚ) (a : ℚ) : ℚ := dts.foldl animateAttraction a

/-- State of a ShapeManager: particle count, current shape name and the
target-position payload (abstract type, since the samplers draw random
numbers that the claims do not constrain). -/
structure ShapeManagerState (α : Type) where
  particleCount : ℕ
  currentShape : String
  targetPositions : α

/-- The four sampler bound-methods of the shapes dispatch table. -/
structure SamplerSet (α : Type) where
  sampleSphere : ℕ → α
  sampleCube : ℕ → α
  sampleTorus : ℕ → α
  sampleHeart : ℕ → α

/-- Function-valued members every plain object literal inherits from
Object.prototype (ECMAScript core; browser environments inherit further
Annex-B members, which would only enlarge this set).  A property read of one
of these names on the shapes table yields a truthy callable, and calling any
of them with the particle count as argument returns normally. -/
def objectProtoFunctionKeys : List String :=
  ["constructor", "hasOwnProperty", "isPrototypeOf", "propertyIsEnumerable",
   "toLocaleString", "toString", "valueOf"]

/-- Result of the JavaScript property read this.shapes[shapeName]: an own key
of the four-entry object literal hits its sampler; any other name continues
on the prototype chain and can hit a truthy inherited Object.prototype
function; only the remaining names read as undefined (falsy). -/
inductive ShapesProp (α : Type)
  | sampler (sample : ℕ → α)
  | protoFn (name : String)
  | undef

/-- Property read this.shapes[shapeName], own keys first, then the
Object.prototype members. -/
def shapesRead {α : Type} (S : SamplerSet α) (shapeName : String) : ShapesProp α :=
  if shapeName = "sphere" then ShapesProp.sampler S.sampleSphere
  else if shapeName = "cube" then ShapesProp.sampler S.sampleCube
  else if shapeName = "torus" then ShapesProp.sampler S.sampleTorus
  else if shapeName = "heart" then ShapesProp.sampler S.sampleHeart
  else if shapeName ∈ objectProtoFunctionKeys then ShapesProp.protoFn shapeName
  else ShapesProp.undef

/-- ShapeManager.updateShape.  The guard is a truthiness test of the property
read: only an undefined read (the first arm) warns and returns without
mutation; every truthy read, a sampler or an inherited Object.prototype
function alike, proceeds to set currentShape and overwrite targetPositions
with the result of calling the property (protoCall gives the value an
inherited member returns, e.g. a Number wrapper object for constructor). -/
def updateShape {α : Type} (S : SamplerSet α) (protoCall : String → ℕ → α)
    (m : ShapeManagerState α) (shapeName : String) : ShapeManagerState α :=
  match shapesRead S shapeName with
  | ShapesProp.undef => m
  | ShapesProp.sampler sample => ⟨m.particleCount, shapeName, sample m.particleCount⟩
  | ShapesProp.protoFn name => ⟨m.particleCount, shapeName, protoCall name m.particleCount⟩

/-- Rational 3-vector for the CPU-side target positions. -/
structure Vec3Q where
  x : ℚ
  y : ℚ
  z : ℚ

/-- Rational RGBA texel. -/
structure Vec4Q where
  x : ℚ
  y : ℚ
  z : ℚ
  w : ℚ

/-- Side length of the target texture: Math.ceil(Math.sqrt(particleCount)),
computed as Nat.sqrt (particleCount - 1) + 1 for particleCount > 0. -/
def textureSizeOf (particleCount : ℕ) : ℕ :=
  if particleCount = 0 then 0 else Nat.sqrt (particleCount - 1) + 1

/-- Write one target point into the flat RGBA array at texel i (x, y, z, 1). -/
def writePoint (data : ℕ → ℚ) (i : ℕ) (p : Vec3Q) : ℕ → ℚ := fun j =>
  if j = i * 4 then p.x
  else if j = i * 4 + 1 then p.y
  else if j = i * 4 + 2 then p.z
  else if j = i * 4 + 3 then 1
  else data j

/-- ShapeManager.createTargetTexture: a zero-initialized Float32Array of
size*size RGBA cells into which the first particleCount target points are
written in index order. -/
def createTargetTexture (particleCount : ℕ) (targets : ℕ → Vec3Q) : ℕ → ℚ :=
  (List.range particleCount).foldl (fun data i => writePoint data i (targets i)) (fun _ => 0)

/-- Nearest-neighbor sampling with CLAMP_TO_EDGE of a size x size RGBA
texture stored row-major in a flat array. -/
def textureSample (size : ℕ) (data : ℕ → ℚ) (uv : ℚ × ℚ) : Vec4Q :=
  let tx := min (size - 1) (Int.toNat ⌊uv.1 * size⌋)
  let ty := min (size - 1) (Int.toNat ⌊uv.2 * size⌋)
  ⟨data ((ty * size + tx) * 4), data ((ty * size + tx) * 4 + 1),
    data ((ty * size + tx) * 4 + 2), data ((ty * size + tx) * 4 + 3)⟩

/-- getTargetPosition from the update shader: row-major texel of the particle
id, sampled at the texel center. -/
def getTargetPosition (size : ℕ) (data : ℕ → ℚ) (id : ℚ) : Vec3Q :=
  let y : ℚ := (⌊id / (size : ℚ)⌋ : ℤ)
  let x : ℚ := id - y * size
  let uv : ℚ × ℚ := ((x + 0.5) / size, (y + 0.5) / size)
  let d := textureSample size data uv
  ⟨d.x, d.y, d.z⟩

/-- Projection matrix (4 by 4) of the normal-reconstruction pass. -/
abbrev Mat4 := Matrix (Fin 4) (Fin 4) ℝ

/-- reconstructViewPosition from normal_reconstruction.frag.glsl: NDC from the
texture coordinate, clip-space position from depth, inverse projection and
perspective divide. -/
noncomputable def reconstructViewPosition (proj : Mat4) (depth : ℝ) (texCoord : ℝ × ℝ) :
    Vec3 :=
  let ndc : ℝ × ℝ := (texCoord.1 * 2 - 1, texCoord.2 * 2 - 1)
  let clipPos : Fin 4 → ℝ := ![ndc.1, ndc.2, depth * 2 - 1, 1]
  let invProj := proj⁻¹
  let viewPos := invProj.mulVec clipPos
  ⟨viewPos 0 / viewPos 3, viewPos 1 / viewPos 3, viewPos 2 / viewPos 3⟩

/-- Fragment entry point of normal_reconstruction.frag.glsl.  The depth
texture is modelled as a function of the sampled coordinate; background is
depth = 0. -/
noncomputable def normalMain (depthTex : ℝ × ℝ → ℝ) (texelSize : ℝ × ℝ) (proj : Mat4)
    (vTexCoord : ℝ × ℝ) : Vec4 :=
  let depth := depthTex vTexCoord
  if depth = 0 then ⟨0, 0, 0, 0⟩
  else
    let depthRight0 := depthTex (vTexCoord.1 + texelSize.1, vTexCoord.2)
    let depthLeft0 := depthTex (vTexCoord.1 - texelSize.1, vTexCoord.2)
    let depthUp0 := depthTex (vTexCoord.1, vTexCoord.2 + texelSize.2)
    let depthDown0 := depthTex (vTexCoord.1, vTexCoord.2 - texelSize.2)
    let depthRight := if depthRight0 = 0 then depth else depthRight0
    let depthLeft := if depthLeft0 = 0 then depth else depthLeft0
    let depthUp := if depthUp0 = 0 then depth else depthUp0
    let depthDown := if depthDown0 = 0 then depth else depthDown0
    let posCenter := reconstructViewPosition proj depth vTexCoord
    let posRight := reconstructViewPosition proj depthRight
      (vTexCoord.1 + texelSize.1, vTexCoord.2)
    let posLeft := reconstructViewPosition proj depthLeft
      (vTexCoord.1 - texelSize.1, vTexCoord.2)
    let posUp := reconstructViewPosition proj depthUp
      (vTexCoord.1, vTexCoord.2 + texelSize.2)
    let posDown := reconstructViewPosition proj depthDown
      (vTexCoord.1, vTexCoord.2 - texelSize.2)
    let ddx := (0.5 : ℝ) • (posRight - posLeft)
    let ddy := (0.5 : ℝ) • (posUp - posDown)
    let n0 := normalize (cross ddx ddy)
    let n := if n0.z > 0 then -n0 else n0
    ⟨n.x * 0.5 + 0.5, n.y * 0.5 + 0.5, n.z * 0.5 + 0.5, 1⟩

/-- Normal as worded in the spec: fall back to the center depth for any
background 4-neighbor, inverse-project the neighbors, take the central
differences ddx and ddy, set normal = normalize(cross(ddx, ddy)), and flip
it whenever its z component points away from the camera (z > 0). -/
noncomputable def specNormal (depthTex : ℝ × ℝ → ℝ) (texelSize : ℝ × ℝ) (proj : Mat4)
    (vTexCoord : ℝ × ℝ) : Vec3 :=
  let depth := depthTex vTexCoord
  let fb := fun d => if d = 0 then depth else d
  let posRight := reconstructViewPosition proj
    (fb (depthTex (vTexCoord.1 + texelSize.1, vTexCoord.2)))
    (vTexCoord.1 + texelSize.1, vTexCoord.2)
  let posLeft := reconstructViewPosition proj
    (fb (depthTex (vTexCoord.1 - texelSize.1, vTexCoord.2)))
    (vTexCoord.1 - texelSize.1, vTexCoord.2)
  let posUp := reconstructViewPosition proj
    (fb (depthTex (vTexCoord.1, vTexCoord.2 + texelSize.2)))
    (vTexCoord.1, vTexCoord.2 + texelSize.2)
  let posDown := reconstructViewPosition proj
    (fb (depthTex (vTexCoord.1, vTexCoord.2 - texelSize.2)))
    (vTexCoord.1, vTexCoord.2 - texelSize.2)
  let ddx := (0.5 : ℝ) • (posRight - posLeft)
  let ddy := (0.5 : ℝ) • (posUp - posDown)
  let n := normalize (cross ddx ddy)
  if n.z > 0 then -n else n

theorem Vec3.ext_iff {a b : Vec3} : a = b ↔ a.x = b.x ∧ a.y = b.y ∧ a.z = b.z := by
  cases a; cases b; simp [Vec3.mk.injEq]

@[simp] theorem Vec3.zero_x : (0 : Vec3).x = 0 := rfl

@[simp] theorem Vec3.zero_y : (0 : Vec3).y = 0 := rfl

@[simp] theorem Vec3.zero_z : (0 : Vec3).z = 0 := rfl

@[simp] theorem Vec3.add_x (a b : Vec3) : (a + b).x = a.x + b.x := rfl

@[simp] theorem Vec3.add_y (a b : Vec3) : (a + b).y = a.y + b.y := rfl

@[simp] theorem Vec3.add_z (a b : Vec3) : (a + b).z = a.z + b.z := rfl

@[simp] theorem Vec3.sub_x (a b : Vec3) : (a - b).x = a.x - b.x := rfl

@[simp] theorem Vec3.sub_y (a b : Vec3) : (a - b).y = a.y - b.y := rfl

@[simp] theorem Vec3.sub_z (a b : Vec3) : (a - b).z = a.z - b.z := rfl

@[simp] theorem Vec3.neg_x (a : Vec3) : (-a).x = -a.x := rfl

@[simp] theorem Vec3.neg_y (a : Vec3) : (-a).y = -a.y := rfl

@[simp] theorem Vec3.neg_z (a : Vec3) : (-a).z = -a.z := rfl

@[simp] theorem Vec3.smul_x (c : ℝ) (a : Vec3) : (c • a).x = c * a.x := rfl

@[simp] theorem Vec3.smul_y (c : ℝ) (a : Vec3) : (c • a).y = c * a.y := rfl

@[simp] theorem Vec3.smul_z (c : ℝ) (a : Vec3) : (c • a).z = c * a.z := rfl

@[simp] theorem Vec3.add_zero (a : Vec3) : a + 0 = a := by
  cases a; simp [Vec3.ext_iff]

theorem normSq_nonneg (v : Vec3) : 0 ≤ normSq v := by
  have hx := mul_self_nonneg v.x
  have hy := mul_self_nonneg v.y
  have hz := mul_self_nonneg v.z
  unfold normSq; linarith

theorem length_nonneg (v : Vec3) : 0 ≤ length v := Real.sqrt_nonneg _

theorem length_scenario_gravity : length ⟨0, -9.81, 0⟩ = 9.81 := by
  have h : normSq ⟨0, -9.81, 0⟩ = 9.81 ^ 2 := by unfold normSq; norm_num
  unfold length
  rw [h, Real.sqrt_sq (by norm_num : (0 : ℝ) ≤ 9.81)]

theorem normalize_scenario_gravity : normalize ⟨0, -9.81, 0⟩ = ⟨0, -1, 0⟩ := by
  unfold normalize
  rw [length_scenario_gravity]
  norm_num [Vec3.ext_iff]

@[simp] theorem scenarioUniforms_deltaTime : scenarioUniforms.deltaTime = 0.1 := rfl

@[simp] theorem scenarioUniforms_gravity : scenarioUniforms.gravity = ⟨0, -9.81, 0⟩ := rfl

@[simp] theorem scenarioUniforms_bounds : scenarioUniforms.bounds = ⟨1, 1, 1⟩ := rfl

@[simp] theorem scenarioUniforms_damping : scenarioUniforms.damping = 1 := rfl

@[simp] theorem scenarioUniforms_bounce : scenarioUniforms.bounce = 0.5 := rfl

@[simp] theorem scenarioUniforms_touchPoints (i : Fin 5) :
    scenarioUniforms.touchPoints i = ⟨0, 0, 0, 0⟩ := rfl

@[simp] theorem scenarioUniforms_shapeAttraction : scenarioUniforms.shapeAttraction = 0 := rfl

theorem scenario_applyGravity : applyGravity scenarioUniforms (0 : Vec3) = ⟨0, -0.981, 0⟩ := by
  unfold applyGravity
  simp only [scenarioUniforms_gravity, scenarioUniforms_deltaTime]
  rw [length_scenario_gravity, normalize_scenario_gravity]
  norm_num [Vec3.ext_iff]

theorem scenario_velocity :
    updateVelocity scenarioUniforms ⟨0, -0.95, 0⟩ 0 0 = ⟨0, -0.981, 0⟩ := by
  unfold updateVelocity applyTurbulence applyTouches applyAttraction
  rw [scenario_applyGravity]
  norm_num [touchContrib, List.foldl_cons, List.foldl_nil, Vec3.ext_iff]

theorem scenario_step_eval :
    step scenarioUniforms ⟨0, -0.95, 0⟩ 0 0 = (⟨0, -0.5, 0⟩, ⟨0, 0.4905, 0⟩) := by
  simp only [step]
  rw [scenario_velocity]
  norm_num [applyBounds, clampAxis, Vec3.ext_iff, Prod.ext_iff, abs_of_nonneg]

/-- C1 counterexample: in the end-to-end scenario the clamped y position after
one step is the box half-extent -0.5 (= -(bounds.y)/2), not -1.0 as claimed. -/
theorem scenario_clamped_y_ne_neg_one :
    (step scenarioUniforms ⟨0, -0.95, 0⟩ 0 0).1.y ≠ -1 := by
  rw [scenario_step_eval]
  norm_num

/-- C1 amended: with bounds (1,1,1) (half-extent 0.5 per axis), bounce 0.5,
gravity (0,-9.81,0), dt 0.1, damping 1, zero initial velocity, attraction 0
and touch strengths 0, a particle starting at y = -0.95 reaches, after one
step, the unclamped y position -1.0481 (≈ -1.048) with y velocity -0.981,
and the clamped result is exactly y = -0.5 with y velocity
+0.4905 (= 0.981 * 0.5). -/
theorem scenario_step_values :
    updateVelocity scenarioUniforms ⟨0, -0.95, 0⟩ 0 0 = ⟨0, -0.981, 0⟩ ∧
    ((⟨0, -0.95, 0⟩ : Vec3) +
        scenarioUniforms.deltaTime • updateVelocity scenarioUniforms ⟨0, -0.95, 0⟩ 0 0).y
      = -1.0481 ∧
    step scenarioUniforms ⟨0, -0.95, 0⟩ 0 0 = (⟨0, -0.5, 0⟩, ⟨0, 0.4905, 0⟩) := by
  refine ⟨scenario_velocity, ?_, scenario_step_eval⟩
  rw [scenario_velocity]
  norm_num

theorem length_zero_vec : length (0 : Vec3) = 0 := by
  unfold length normSq
  norm_num

theorem step_eq_applyBounds (u : Uniforms) (p v noise : Vec3) :
    step u p v noise = applyBounds u (unclampedPos u p v noise) (updateVelocity u p v noise) := rfl

theorem applyBounds_x (u : Uniforms) (p v : Vec3) :
    ((applyBounds u p v).1.x, (applyBounds u p v).2.x)
      = clampAxis (0.5 * u.bounds.x) u.bounce p.x v.x := by
  simp [applyBounds]

theorem applyBounds_y (u : Uniforms) (p v : Vec3) :
    ((applyBounds u p v).1.y, (applyBounds u p v).2.y)
      = clampAxis (0.5 * u.bounds.y) u.bounce p.y v.y := by
  simp [applyBounds]

theorem applyBounds_z (u : Uniforms) (p v : Vec3) :
    ((applyBounds u p v).1.z, (applyBounds u p v).2.z)
      = clampAxis (0.5 * u.bounds.z) u.bounce p.z v.z := by
  simp [applyBounds]

theorem clampAxis_low {hb p v : ℝ} (bounce : ℝ) (h : p < -hb) :
    clampAxis hb bounce p v = (-hb, |v| * bounce) := by
  unfold clampAxis
  rw [if_pos h]

theorem clampAxis_high {hb p v : ℝ} (bounce : ℝ) (hhb : 0 ≤ hb) (h : hb < p) :
    clampAxis hb bounce p v = (hb, -|v| * bounce) := by
  unfold clampAxis
  rw [if_neg (by linarith), if_pos h]

theorem clampAxis_fst_mem {hb : ℝ} (bounce p v : ℝ) (h : 0 ≤ hb) :
    -hb ≤ (clampAxis hb bounce p v).1 ∧ (clampAxis hb bounce p v).1 ≤ hb := by
  unfold clampAxis
  split_ifs with h1 h2 <;> dsimp only <;> constructor <;> linarith

theorem clampAxis_snd_abs_le {bounce : ℝ} (hb p v : ℝ) (hb0 : 0 ≤ bounce) (hb1 : bounce ≤ 1) :
    |(clampAxis hb bounce p v).2| ≤ |v| := by
  unfold clampAxis
  split_ifs with h1 h2 <;> dsimp only
  · rw [abs_mul, abs_abs, abs_of_nonneg hb0]
    exact mul_le_of_le_one_right (abs_nonneg v) hb1
  · rw [neg_mul, abs_neg, abs_mul, abs_abs, abs_of_nonneg hb0]
    exact mul_le_of_le_one_right (abs_nonneg v) hb1
  · exact le_refl _

theorem step_pos_inBounds (u : Uniforms) (p v noise : Vec3)
    (hx : 0 ≤ u.bounds.x) (hy : 0 ≤ u.bounds.y) (hz : 0 ≤ u.bounds.z) :
    inBounds u.bounds (step u p v noise).1 := by
  rw [step_eq_applyBounds]
  have hbx : (0 : ℝ) ≤ 0.5 * u.bounds.x := by linarith
  have hby : (0 : ℝ) ≤ 0.5 * u.bounds.y := by linarith
  have hbz : (0 : ℝ) ≤ 0.5 * u.bounds.z := by linarith
  have ex := applyBounds_x u (unclampedPos u p v noise) (updateVelocity u p v noise)
  have ey := applyBounds_y u (unclampedPos u p v noise) (updateVelocity u p v noise)
  have ez := applyBounds_z u (unclampedPos u p v noise) (updateVelocity u p v noise)
  have mx := clampAxis_fst_mem u.bounce (unclampedPos u p v noise).x
    (updateVelocity u p v noise).x hbx
  have my := clampAxis_fst_mem u.bounce (unclampedPos u p v noise).y
    (updateVelocity u p v noise).y hby
  have mz := clampAxis_fst_mem u.bounce (unclampedPos u p v noise).z
    (updateVelocity u p v noise).z hbz
  rw [← ex] at mx
  rw [← ey] at my
  rw [← ez] at mz
  exact ⟨mx, my, mz⟩

/-- C3: with fixed nonnegative bounds, every position component stays inside
the closed box [-bounds/2, bounds/2] after any number of simulation steps,
whatever the gravity, attraction, touch, damping, bounce, noise and dt
inputs of each step are. -/
theorem positions_stay_in_bounds (us : ℕ → Uniforms) (noises : ℕ → Vec3) (B : Vec3)
    (hB : ∀ k, (us k).bounds = B) (hx : 0 ≤ B.x) (hy : 0 ≤ B.y) (hz : 0 ≤ B.z)
    (p v : Vec3) (hp : inBounds B p) (n : ℕ) :
    inBounds B (iterateSteps us noises n (p, v)).1 := by
  induction n with
  | zero => exact hp
  | succ n _ =>
      have h := step_pos_inBounds (us n) (iterateSteps us noises n (p, v)).1
        (iterateSteps us noises n (p, v)).2 (noises n)
      rw [hB n] at h
      exact h hx hy hz

/-- C3 witness: the containment theorem applied to the concrete scenario after
two steps. -/
theorem positions_stay_in_bounds_witness :
    inBounds ⟨1, 1, 1⟩ (0 : Vec3) ∧
    inBounds ⟨1, 1, 1⟩ (iterateSteps (fun _ => scenarioUniforms) (fun _ => 0) 2 (0, 0)).1 :=
  ⟨by norm_num [inBounds],
    positions_stay_in_bounds (fun _ => scenarioUniforms) (fun _ => 0) ⟨1, 1, 1⟩
      (fun _ => rfl) (by norm_num) (by norm_num) (by norm_num) 0 0
      (by norm_num [inBounds]) 2⟩

/-- C4 amended: whenever the integrated (unclamped) position penetrates the
box on an axis, the position component is clamped to that boundary and the
velocity component is set to the inward-pointing bounced value: +|v|*bounce
at the low face and -|v|*bounce at the high face (this equals
-sign(v)*|v|*bounce exactly when the incoming v points outward). -/
theorem step_boundary_reflect (u : Uniforms) (p v noise : Vec3)
    (hx : 0 ≤ u.bounds.x) (hy : 0 ≤ u.bounds.y) (hz : 0 ≤ u.bounds.z) :
    ((unclampedPos u p v noise).x < -(0.5 * u.bounds.x) →
      (step u p v noise).1.x = -(0.5 * u.bounds.x) ∧
      (step u p v noise).2.x = |(updateVelocity u p v noise).x| * u.bounce) ∧
    (0.5 * u.bounds.x < (unclampedPos u p v noise).x →
      (step u p v noise).1.x = 0.5 * u.bounds.x ∧
      (step u p v noise).2.x = -|(updateVelocity u p v noise).x| * u.bounce) ∧
    ((unclampedPos u p v noise).y < -(0.5 * u.bounds.y) →
      (step u p v noise).1.y = -(0.5 * u.bounds.y) ∧
      (step u p v noise).2.y = |(updateVelocity u p v noise).y| * u.bounce) ∧
    (0.5 * u.bounds.y < (unclampedPos u p v noise).y →
      (step u p v noise).1.y = 0.5 * u.bounds.y ∧
      (step u p v noise).2.y = -|(updateVelocity u p v noise).y| * u.bounce) ∧
    ((unclampedPos u p v noise).z < -(0.5 * u.bounds.z) →
      (step u p v noise).1.z = -(0.5 * u.bounds.z) ∧
      (step u p v noise).2.z = |(updateVelocity u p v noise).z| * u.bounce) ∧
    (0.5 * u.bounds.z < (unclampedPos u p v noise).z →
      (step u p v noise).1.z = 0.5 * u.bounds.z ∧
      (step u p v noise).2.z = -|(updateVelocity u p v noise).z| * u.bounce) := by
  have ex := applyBounds_x u (unclampedPos u p v noise) (updateVelocity u p v noise)
  have ey := applyBounds_y u (unclampedPos u p v noise) (updateVelocity u p v noise)
  have ez := applyBounds_z u (unclampedPos u p v noise) (updateVelocity u p v noise)
  rw [step_eq_applyBounds]
  refine ⟨fun h => ?_, fun h => ?_, fun h => ?_, fun h => ?_, fun h => ?_, fun h => ?_⟩
  · rw [clampAxis_low u.bounce h] at ex
    exact ⟨congrArg Prod.fst ex, congrArg Prod.snd ex⟩
  · rw [clampAxis_high u.bounce (by linarith) h] at ex
    exact ⟨congrArg Prod.fst ex, congrArg Prod.snd ex⟩
  · rw [clampAxis_low u.bounce h] at ey
    exact ⟨congrArg Prod.fst ey, congrArg Prod.snd ey⟩
  · rw [clampAxis_high u.bounce (by linarith) h] at ey
    exact ⟨congrArg Prod.fst ey, congrArg Prod.snd ey⟩
  · rw [clampAxis_low u.bounce h] at ez
    exact ⟨congrArg Prod.fst ez, congrArg Prod.snd ez⟩
  · rw [clampAxis_high u.bounce (by linarith) h] at ez
    exact ⟨congrArg Prod.fst ez, congrArg Prod.snd ez⟩

/-- C4 witness: the amended boundary law applied to the concrete scenario,
whose particle penetrates the low y face. -/
theorem step_boundary_reflect_witness :
    (step scenarioUniforms ⟨0, -0.95, 0⟩ 0 0).1.y = -(0.5 * scenarioUniforms.bounds.y) ∧
    (step scenarioUniforms ⟨0, -0.95, 0⟩ 0 0).2.y
      = |(updateVelocity scenarioUniforms ⟨0, -0.95, 0⟩ 0 0).y| * scenarioUniforms.bounce := by
  have hc : (unclampedPos scenarioUniforms ⟨0, -0.95, 0⟩ 0 0).y
      < -(0.5 * scenarioUniforms.bounds.y) := by
    unfold unclampedPos
    rw [scenario_velocity]
    norm_num
  exact (step_boundary_reflect scenarioUniforms ⟨0, -0.95, 0⟩ 0 0
    (by norm_num) (by norm_num) (by norm_num)).2.2.1 hc

@[simp] theorem cexUniforms_deltaTime : cexUniforms.deltaTime = 1 := rfl

@[simp] theorem cexUniforms_gravity : cexUniforms.gravity = 0 := rfl

@[simp] theorem cexUniforms_bounds : cexUniforms.bounds = ⟨1, 1, 1⟩ := rfl

@[simp] theorem cexUniforms_damping : cexUniforms.damping = 1 := rfl

@[simp] theorem cexUniforms_bounce : cexUniforms.bounce = 0.5 := rfl

@[simp] theorem cexUniforms_touchPoints (i : Fin 5) :
    cexUniforms.touchPoints i = ⟨0, 0, 0, 0⟩ := rfl

@[simp] theorem cexUniforms_shapeAttraction : cexUniforms.shapeAttraction = 0 := rfl

theorem cex_velocity :
    updateVelocity cexUniforms ⟨-10, 0, 0⟩ ⟨2, 0, 0⟩ 0 = ⟨2, 0, 0⟩ := by
  unfold updateVelocity applyTurbulence applyTouches applyAttraction applyGravity
  simp only [cexUniforms_gravity, cexUniforms_shapeAttraction]
  rw [length_zero_vec]
  norm_num [touchContrib, List.foldl_cons, List.foldl_nil, Vec3.ext_iff]

theorem cex_step_eval :
    step cexUniforms ⟨-10, 0, 0⟩ ⟨2, 0, 0⟩ 0 = (⟨-0.5, 0, 0⟩, ⟨1, 0, 0⟩) := by
  simp only [step]
  rw [cex_velocity]
  norm_num [applyBounds, clampAxis, Vec3.ext_iff, Prod.ext_iff, abs_of_nonneg]

/-- C4 counterexample: a particle that penetrates the low x face while its
velocity already points back inside (v.x = 2 > 0).  The claimed law
v = -sign(v)*|v|*bounce demands x velocity -1, but the code produces +1. -/
theorem step_reflect_claim_false :
    (unclampedPos cexUniforms ⟨-10, 0, 0⟩ ⟨2, 0, 0⟩ 0).x < -(0.5 * cexUniforms.bounds.x) ∧
    (step cexUniforms ⟨-10, 0, 0⟩ ⟨2, 0, 0⟩ 0).2.x
      ≠ -Real.sign ((updateVelocity cexUniforms ⟨-10, 0, 0⟩ ⟨2, 0, 0⟩ 0).x) *
          |(updateVelocity cexUniforms ⟨-10, 0, 0⟩ ⟨2, 0, 0⟩ 0).x| * cexUniforms.bounce := by
  constructor
  · unfold unclampedPos
    rw [cex_velocity]
    norm_num
  · rw [cex_step_eval, cex_velocity]
    have hs : Real.sign (2 : ℝ) = 1 := Real.sign_of_pos (by norm_num)
    norm_num [hs]

theorem length_smul (c : ℝ) (v : Vec3) : length (c • v) = |c| * length v := by
  unfold length normSq
  simp only [Vec3.smul_x, Vec3.smul_y, Vec3.smul_z]
  rw [show c * v.x * (c * v.x) + c * v.y * (c * v.y) + c * v.z * (c * v.z)
      = c ^ 2 * (v.x * v.x + v.y * v.y + v.z * v.z) by ring]
  rw [Real.sqrt_mul (sq_nonneg c), Real.sqrt_sq_eq_abs]

theorem length_le_of_abs_le {a b : Vec3} (hx : |a.x| ≤ |b.x|) (hy : |a.y| ≤ |b.y|)
    (hz : |a.z| ≤ |b.z|) : length a ≤ length b := by
  unfold length
  apply Real.sqrt_le_sqrt
  unfold normSq
  have h1 := mul_self_le_mul_self (abs_nonneg a.x) hx
  have h2 := mul_self_le_mul_self (abs_nonneg a.y) hy
  have h3 := mul_self_le_mul_self (abs_nonneg a.z) hz
  rw [abs_mul_abs_self, abs_mul_abs_self] at h1 h2 h3
  linarith

theorem updateVelocity_no_forces (u : Uniforms) (p v noise : Vec3)
    (hg : u.gravity = 0) (ht : ∀ i, (u.touchPoints i).w = 0)
    (ha : u.shapeAttraction = 0) :
    updateVelocity u p v noise = u.damping • v := by
  unfold updateVelocity applyTurbulence applyTouches applyAttraction applyGravity
  rw [hg, ha, length_zero_vec]
  have hcontrib : ∀ i : Fin 5, touchContrib u p i = 0 := by
    intro i
    norm_num [touchContrib, ht i]
  norm_num [hcontrib, List.foldl_cons, List.foldl_nil, Vec3.ext_iff]

/-- C5 amended: with gravity 0, touch strengths 0, attraction 0,
0 ≤ damping < 1 and 0 ≤ bounce ≤ 1, the particle speed is non-increasing
across one simulation step. -/
theorem speed_nonincreasing (u : Uniforms) (p v noise : Vec3)
    (hg : u.gravity = 0) (ht : ∀ i, (u.touchPoints i).w = 0)
    (ha : u.shapeAttraction = 0)
    (hd0 : 0 ≤ u.damping) (hd1 : u.damping < 1)
    (hc0 : 0 ≤ u.bounce) (hc1 : u.bounce ≤ 1) :
    length (step u p v noise).2 ≤ length v := by
  have hvel := updateVelocity_no_forces u p v noise hg ht ha
  have ex := applyBounds_x u (unclampedPos u p v noise) (updateVelocity u p v noise)
  have ey := applyBounds_y u (unclampedPos u p v noise) (updateVelocity u p v noise)
  have ez := applyBounds_z u (unclampedPos u p v noise) (updateVelocity u p v noise)
  have hax := clampAxis_snd_abs_le (0.5 * u.bounds.x) (unclampedPos u p v noise).x
    (updateVelocity u p v noise).x hc0 hc1
  have hay := clampAxis_snd_abs_le (0.5 * u.bounds.y) (unclampedPos u p v noise).y
    (updateVelocity u p v noise).y hc0 hc1
  have haz := clampAxis_snd_abs_le (0.5 * u.bounds.z) (unclampedPos u p v noise).z
    (updateVelocity u p v noise).z hc0 hc1
  rw [← ex] at hax
  rw [← ey] at hay
  rw [← ez] at haz
  have h1 : length (step u p v noise).2 ≤ length (updateVelocity u p v noise) := by
    rw [step_eq_applyBounds]
    exact length_le_of_abs_le hax hay haz
  have h2 : length (updateVelocity u p v noise) ≤ length v := by
    rw [hvel, length_smul, abs_of_nonneg hd0]
    have := length_nonneg v
    nlinarith
  linarith

/-- C5 witness: the speed-decay theorem at a concrete input. -/
theorem speed_nonincreasing_witness :
    calmUniforms.gravity = 0 ∧ (∀ i, (calmUniforms.touchPoints i).w = 0) ∧
    calmUniforms.shapeAttraction = 0 ∧
    0 ≤ calmUniforms.damping ∧ calmUniforms.damping < 1 ∧
    0 ≤ calmUniforms.bounce ∧ calmUniforms.bounce ≤ 1 ∧
    length (step calmUniforms 0 ⟨1, 0, 0⟩ 0).2 ≤ length ⟨1, 0, 0⟩ :=
  ⟨rfl, fun _ => rfl, rfl, by norm_num [calmUniforms], by norm_num [calmUniforms],
    by norm_num [calmUniforms], by norm_num [calmUniforms],
    speed_nonincreasing calmUniforms 0 ⟨1, 0, 0⟩ 0 rfl (fun _ => rfl) rfl
      (by norm_num [calmUniforms]) (by norm_num [calmUniforms])
      (by norm_num [calmUniforms]) (by norm_num [calmUniforms])⟩

@[simp] theorem dampUniforms_deltaTime : dampUniforms.deltaTime = 1 := rfl

@[simp] theorem dampUniforms_gravity : dampUniforms.gravity = 0 := rfl

@[simp] theorem dampUniforms_bounds : dampUniforms.bounds = ⟨100, 100, 100⟩ := rfl

@[simp] theorem dampUniforms_damping : dampUniforms.damping = -2 := rfl

@[simp] theorem dampUniforms_bounce : dampUniforms.bounce = 0.5 := rfl

@[simp] theorem dampUniforms_touchPoints (i : Fin 5) :
    dampUniforms.touchPoints i = ⟨0, 0, 0, 0⟩ := rfl

@[simp] theorem dampUniforms_shapeAttraction : dampUniforms.shapeAttraction = 0 := rfl

theorem length_unit_x : length ⟨1, 0, 0⟩ = 1 := by
  have h : normSq ⟨1, 0, 0⟩ = 1 ^ 2 := by unfold normSq; norm_num
  unfold length
  rw [h, Real.sqrt_sq (by norm_num : (0 : ℝ) ≤ 1)]

theorem length_neg_two_x : length ⟨-2, 0, 0⟩ = 2 := by
  have h : normSq ⟨-2, 0, 0⟩ = 2 ^ 2 := by unfold normSq; norm_num
  unfold length
  rw [h, Real.sqrt_sq (by norm_num : (0 : ℝ) ≤ 2)]

/-- C5 counterexample: gravity 0, touch strengths 0, attraction 0 and
damping = -2 < 1, yet the speed grows from 1 to 2 in a single step. -/
theorem speed_increases_with_negative_damping :
    dampUniforms.gravity = 0 ∧ (∀ i, (dampUniforms.touchPoints i).w = 0) ∧
    dampUniforms.shapeAttraction = 0 ∧ dampUniforms.damping < 1 ∧
    length ⟨1, 0, 0⟩ < length (step dampUniforms 0 ⟨1, 0, 0⟩ 0).2 := by
  refine ⟨rfl, fun _ => rfl, rfl, by norm_num, ?_⟩
  have hvel := updateVelocity_no_forces dampUniforms 0 ⟨1, 0, 0⟩ 0 rfl (fun _ => rfl) rfl
  have hv2 : updateVelocity dampUniforms 0 ⟨1, 0, 0⟩ 0 = ⟨-2, 0, 0⟩ := by
    rw [hvel]
    norm_num [Vec3.ext_iff]
  have hstep : step dampUniforms 0 ⟨1, 0, 0⟩ 0 = (⟨-2, 0, 0⟩, ⟨-2, 0, 0⟩) := by
    simp only [step]
    rw [hv2]
    norm_num [applyBounds, clampAxis, Vec3.ext_iff, Prod.ext_iff]
  rw [hstep, length_unit_x, length_neg_two_x]
  norm_num

theorem length_ne_zero_of_gt {v : Vec3} (h : length v > 0.001) : length v ≠ 0 := by
  intro he
  rw [he] at h
  norm_num at h

theorem applyGravityChecked_eq (u : Uniforms) (v : Vec3) :
    applyGravityChecked u v = some (applyGravity u v) := by
  unfold applyGravityChecked applyGravity
  by_cases h : length u.gravity > 0.001
  · rw [if_pos h, if_pos h]
    unfold normalizeChecked
    rw [if_neg (length_ne_zero_of_gt h)]
    rfl
  · rw [if_neg h, if_neg h]

theorem applyAttractionChecked_eq (u : Uniforms) (p v : Vec3) :
    applyAttractionChecked u p v = some (applyAttraction u p v) := by
  unfold applyAttractionChecked applyAttraction
  by_cases h1 : u.shapeAttraction > 0
  · rw [if_pos h1, if_pos h1]
    by_cases h2 : length (u.targetPos - p) > 0.001
    · simp only [if_pos h2]
      unfold normalizeChecked
      rw [if_neg (length_ne_zero_of_gt h2)]
      rfl
    · simp only [if_neg h2]
  · rw [if_neg h1, if_neg h1]

theorem touchContribChecked_eq (u : Uniforms) (p : Vec3) (i : Fin 5) :
    touchContribChecked u p i = some (touchContrib u p i) := by
  unfold touchContribChecked touchContrib
  by_cases h1 : (u.touchPoints i).w > 0
  · simp only [if_pos h1]
    by_cases h2 : length (⟨(u.touchPoints i).x, (u.touchPoints i).y, (u.touchPoints i).z⟩ - p)
        > 0.001
    · simp only [if_pos h2]
      unfold divChecked normalizeChecked
      have hden : length (⟨(u.touchPoints i).x, (u.touchPoints i).y, (u.touchPoints i).z⟩ - p) *
          length (⟨(u.touchPoints i).x, (u.touchPoints i).y, (u.touchPoints i).z⟩ - p)
          + 0.1 ≠ 0 := by
        have hnn := length_nonneg
          (⟨(u.touchPoints i).x, (u.touchPoints i).y, (u.touchPoints i).z⟩ - p)
        nlinarith
      rw [if_neg hden, if_neg (length_ne_zero_of_gt h2)]
      rfl
    · simp only [if_neg h2]
  · simp only [if_neg h1]

theorem applyTouchesChecked_eq (u : Uniforms) (p v : Vec3) :
    applyTouchesChecked u p v = some (applyTouches u p v) := by
  unfold applyTouchesChecked applyTouches
  simp only [List.foldl_cons, List.foldl_nil, touchContribChecked_eq, Option.some_bind,
    Option.map_some']

/-- C8: for every finite input state, the simulation step with every division
and normalize explicitly checked never fails: all divisors are guarded away
from zero, so the step produces no NaN/Inf position or velocity. -/
theorem stepChecked_total (u : Uniforms) (p v noise : Vec3) :
    stepChecked u p v noise = some (step u p v noise) := by
  unfold stepChecked step updateVelocity
  simp only [applyGravityChecked_eq, applyAttractionChecked_eq, applyTouchesChecked_eq,
    Option.some_bind, Option.map_some']

/-- C7: from either valid buffer-role assignment, one step makes the
previously-readable buffer writable and vice versa, and two steps restore
the original assignment. -/
theorem buffer_roles_swap (c : ℤ) (h : c = 0 ∨ c = 1) :
    readBuffer (flipBuffer c) = writeBuffer c ∧
    writeBuffer (flipBuffer c) = readBuffer c ∧
    flipBuffer (flipBuffer c) = c := by
  rcases h with h | h <;> subst h <;>
    refine ⟨?_, ?_, ?_⟩ <;> norm_num [readBuffer, writeBuffer, flipBuffer]

/-- C7 witness: the role-swap theorem at the initial selector value 0. -/
theorem buffer_roles_swap_witness :
    ((0 : ℤ) = 0 ∨ (0 : ℤ) = 1) ∧
    (readBuffer (flipBuffer 0) = writeBuffer 0 ∧
      writeBuffer (flipBuffer 0) = readBuffer 0 ∧
      flipBuffer (flipBuffer 0) = 0) :=
  ⟨Or.inl rfl, buffer_roles_swap 0 (Or.inl rfl)⟩

/-- C2 counterexample: a single 2-second frame leaves the attraction at the
configured target 0.8, not at min(1, 0.5*2) = 1. -/
theorem ramp_value_ne_claimed :
    rampAttraction [2] (setShapeAttraction 0) ≠ min 1 (0.5 * 2) := by
  norm_num [rampAttraction, animateAttraction, setShapeAttraction,
    shapeAttractionTarget, List.foldl_cons, List.foldl_nil]

theorem rampAttraction_invariant (dts : List ℚ) (h : ∀ d ∈ dts, 0 ≤ d) (s : ℚ)
    (hs : 0 ≤ s) :
    rampAttraction dts (min shapeAttractionTarget (0.5 * s))
      = min shapeAttractionTarget (0.5 * (s + dts.sum)) := by
  induction dts generalizing s with
  | nil => simp [rampAttraction]
  | cons d rest ih =>
      have hd : 0 ≤ d := h d (by simp)
      have hrest : ∀ x ∈ rest, 0 ≤ x := fun x hx => h x (by simp [hx])
      have hT : (0 : ℚ) ≤ shapeAttractionTarget := by norm_num [shapeAttractionTarget]
      have hT1 : shapeAttractionTarget ≤ 1 := by norm_num [shapeAttractionTarget]
      have hstep : animateAttraction (min shapeAttractionTarget (0.5 * s)) d
          = min shapeAttractionTarget (0.5 * (s + d)) := by
        unfold animateAttraction
        by_cases hlt : min shapeAttractionTarget (0.5 * s) < shapeAttractionTarget
        · have hx : 0.5 * s < shapeAttractionTarget := by
            rcases min_lt_iff.mp hlt with hbad | hgood
            · exact absurd hbad (lt_irrefl _)
            · exact hgood
          have ha : min shapeAttractionTarget (0.5 * s) = 0.5 * s :=
            min_eq_right (le_of_lt hx)
          rw [if_pos hlt, ha]
          have harg : (0.5 * s + d * 0.5 : ℚ) = 0.5 * (s + d) := by ring
          rw [harg, min_comm (0.5 * (s + d)) shapeAttractionTarget]
          unfold setShapeAttraction
          have hub : min shapeAttractionTarget (0.5 * (s + d)) ≤ 1 :=
            le_trans (min_le_left _ _) hT1
          have hlb : (0 : ℚ) ≤ min shapeAttractionTarget (0.5 * (s + d)) :=
            le_min hT (by linarith)
          rw [min_eq_right hub, max_eq_right hlb]
        · have hTs : shapeAttractionTarget ≤ 0.5 * s := by
            by_contra hc
            exact hlt (min_lt_iff.mpr (Or.inr (lt_of_not_le hc)))
          rw [if_neg hlt, min_eq_left hTs, min_eq_left (by linarith)]
      simp only [rampAttraction, List.foldl_cons, hstep, List.sum_cons]
      have hr := ih hrest (s + d) (by linarith)
      simp only [rampAttraction] at hr
      rw [hr, show s + d + rest.sum = s + (d + rest.sum) by ring]

/-- C2 amended: on a shape switch the attraction is reset to exactly 0, and
after frames whose nonnegative delta times sum to t seconds at ramp rate
0.5 per second, the attraction equals min(shapeAttractionTarget, 0.5*t)
= min(0.8, 0.5*t) exactly (the configured target is 0.8, not 1.0). -/
theorem attraction_reset_and_ramp (dts : List ℚ) (h : ∀ d ∈ dts, 0 ≤ d) :
    setShapeAttraction 0 = 0 ∧
    rampAttraction dts (setShapeAttraction 0)
      = min shapeAttractionTarget (0.5 * dts.sum) := by
  have h0 : setShapeAttraction 0 = 0 := by norm_num [setShapeAttraction]
  refine ⟨h0, ?_⟩
  have hinv := rampAttraction_invariant dts h 0 (le_refl 0)
  have hz : min shapeAttractionTarget (0.5 * (0 : ℚ)) = 0 := by
    norm_num [shapeAttractionTarget]
  rw [hz] at hinv
  rw [h0, hinv]
  norm_num

/-- C2 witness: the ramp theorem for two frames of 0.5 seconds each. -/
theorem attraction_reset_and_ramp_witness :
    (∀ d ∈ ([0.5, 0.5] : List ℚ), 0 ≤ d) ∧
    (setShapeAttraction 0 = 0 ∧
      rampAttraction [0.5, 0.5] (setShapeAttraction 0)
        = min shapeAttractionTarget (0.5 * ([0.5, 0.5] : List ℚ).sum)) :=
  ⟨by norm_num, attraction_reset_and_ramp [0.5, 0.5] (by norm_num)⟩

/-- C10: the name "constructor" is not one of the four shapes, yet the
truthiness guard passes because the property read hits the inherited
Object.prototype.constructor, so updateShape mutates the state: currentShape
becomes "constructor" and targetPositions is overwritten with the call
result — the claim that every unknown name is rejected without any state
change fails here, against the guard's own warn-and-return intent. -/
theorem updateShape_constructor_mutates :
    (updateShape (⟨fun _ => 0, fun _ => 0, fun _ => 0, fun _ => 0⟩ : SamplerSet ℕ)
        (fun _ _ => 99) ⟨4, "sphere", 7⟩ "constructor").currentShape = "constructor" ∧
    updateShape (⟨fun _ => 0, fun _ => 0, fun _ => 0, fun _ => 0⟩ : SamplerSet ℕ)
        (fun _ _ => 99) ⟨4, "sphere", 7⟩ "constructor" ≠ ⟨4, "sphere", 7⟩ := by
  have he : (updateShape (⟨fun _ => 0, fun _ => 0, fun _ => 0, fun _ => 0⟩ : SamplerSet ℕ)
      (fun _ _ => 99) ⟨4, "sphere", 7⟩ "constructor")
      = ⟨4, "constructor", 99⟩ := by
    simp [updateShape, shapesRead, objectProtoFunctionKeys]
  refine ⟨by rw [he], fun h => ?_⟩
  rw [he] at h
  have hc := congrArg ShapeManagerState.currentShape h
  exact absurd hc (by decide)

theorem textureSizeOf_pos {particleCount : ℕ} (h : 0 < particleCount) :
    0 < textureSizeOf particleCount := by
  unfold textureSizeOf
  rw [if_neg (by omega)]
  omega

theorem le_textureSizeOf_sq (particleCount : ℕ) :
    particleCount ≤ textureSizeOf particleCount * textureSizeOf particleCount := by
  unfold textureSizeOf
  by_cases h : particleCount = 0
  · simp [h]
  · rw [if_neg h]
    have hlt := Nat.lt_succ_sqrt (particleCount - 1)
    simp only [Nat.succ_eq_add_one] at hlt
    omega

/-- Ceiling property of textureSizeOf: it is the least side that fits all
particles (texture (size-1)^2 would be too small). -/
theorem textureSizeOf_least {particleCount : ℕ} (h : 0 < particleCount) :
    (textureSizeOf particleCount - 1) * (textureSizeOf particleCount - 1) < particleCount := by
  unfold textureSizeOf
  rw [if_neg (by omega)]
  simp only [Nat.add_sub_cancel]
  have hle := Nat.sqrt_le (particleCount - 1)
  omega

theorem createTargetTexture_succ (n : ℕ) (targets : ℕ → Vec3Q) :
    createTargetTexture (n + 1) targets
      = writePoint (createTargetTexture n targets) n (targets n) := by
  unfold createTargetTexture
  rw [List.range_succ, List.foldl_append, List.foldl_cons, List.foldl_nil]

/-- Cells beyond the last written particle stay at their zero initialization. -/
theorem createTargetTexture_padding (particleCount : ℕ) (targets : ℕ → Vec3Q)
    (j : ℕ) (hj : 4 * particleCount ≤ j) :
    createTargetTexture particleCount targets j = 0 := by
  induction particleCount with
  | zero => rfl
  | succ n ih =>
      rw [createTargetTexture_succ]
      unfold writePoint
      rw [if_neg (by omega), if_neg (by omega), if_neg (by omega), if_neg (by omega)]
      exact ih (by omega)

theorem createTargetTexture_read (particleCount : ℕ) (targets : ℕ → Vec3Q)
    (i k : ℕ) (hi : i < particleCount) (hk : k < 4) :
    createTargetTexture particleCount targets (i * 4 + k)
      = (if k = 0 then (targets i).x else if k = 1 then (targets i).y
         else if k = 2 then (targets i).z else 1) := by
  induction particleCount with
  | zero => exact absurd hi (Nat.not_lt_zero i)
  | succ n ih =>
      rw [createTargetTexture_succ]
      unfold writePoint
      by_cases hin : i = n
      · subst hin
        interval_cases k
        · rw [if_pos (by omega)]
          norm_num
        · rw [if_neg (by omega), if_pos (by omega)]
          norm_num
        · rw [if_neg (by omega), if_neg (by omega), if_pos (by omega)]
          norm_num
        · rw [if_neg (by omega), if_neg (by omega), if_neg (by omega), if_pos (by omega)]
          norm_num
      · rw [if_neg (by omega), if_neg (by omega), if_neg (by omega), if_neg (by omega)]
        exact ih (by omega)

theorem createTargetTexture_at_x (particleCount : ℕ) (targets : ℕ → Vec3Q)
    (i : ℕ) (hi : i < particleCount) :
    createTargetTexture particleCount targets (i * 4) = (targets i).x := by
  have h := createTargetTexture_read particleCount targets i 0 hi (by norm_num)
  simpa using h

theorem createTargetTexture_at_y (particleCount : ℕ) (targets : ℕ → Vec3Q)
    (i : ℕ) (hi : i < particleCount) :
    createTargetTexture particleCount targets (i * 4 + 1) = (targets i).y := by
  have h := createTargetTexture_read particleCount targets i 1 hi (by norm_num)
  simpa using h

theorem createTargetTexture_at_z (particleCount : ℕ) (targets : ℕ → Vec3Q)
    (i : ℕ) (hi : i < particleCount) :
    createTargetTexture particleCount targets (i * 4 + 2) = (targets i).z := by
  have h := createTargetTexture_read particleCount targets i 2 hi (by norm_num)
  simpa using h

theorem floor_nat_div (i s : ℕ) (hs : 0 < s) :
    ⌊(i : ℚ) / (s : ℚ)⌋ = ((i / s : ℕ) : ℤ) := by
  have hsq : (0 : ℚ) < (s : ℚ) := by exact_mod_cast hs
  rw [Int.floor_eq_iff]
  constructor
  · rw [le_div_iff₀ hsq]
    have h := Nat.div_mul_le_self i s
    exact_mod_cast h
  · rw [div_lt_iff₀ hsq]
    have hdm := Nat.div_add_mod i s
    have hm := Nat.mod_lt i hs
    have hexp : (i / s + 1) * s = s * (i / s) + s := by ring
    have h : i < (i / s + 1) * s := by omega
    exact_mod_cast h

theorem floor_add_half (r : ℕ) : ⌊(r : ℚ) + 0.5⌋ = (r : ℤ) := by
  rw [Int.floor_eq_iff]
  push_cast
  norm_num

/-- C6: encoding the sampled target positions into the ceil(sqrt(count))-sided
RGBA texture and decoding the texel of particle id i with the shader's
row-major nearest-sampling lookup reproduces the i-th point exactly, for
every i < count; and every array cell beyond the written count cells is
zero-filled. -/
theorem targetTexture_roundtrip_and_padding (particleCount : ℕ) (targets : ℕ → Vec3Q) :
    (∀ i : ℕ, i < particleCount →
      getTargetPosition (textureSizeOf particleCount)
        (createTargetTexture particleCount targets) (i : ℚ) = targets i) ∧
    (∀ j : ℕ, 4 * particleCount ≤ j → createTargetTexture particleCount targets j = 0) := by
  refine ⟨fun i hi => ?_, fun j hj => createTargetTexture_padding particleCount targets j hj⟩
  have hcpos : 0 < particleCount := by omega
  have hs : 0 < textureSizeOf particleCount := textureSizeOf_pos hcpos
  have hcount := le_textureSizeOf_sq particleCount
  have hsne : ((textureSizeOf particleCount : ℕ) : ℚ) ≠ 0 := by
    exact_mod_cast hs.ne'
  have hq : i / textureSizeOf particleCount < textureSizeOf particleCount :=
    (Nat.div_lt_iff_lt_mul hs).mpr (lt_of_lt_of_le hi hcount)
  have hr : i % textureSizeOf particleCount < textureSizeOf particleCount :=
    Nat.mod_lt i hs
  simp only [getTargetPosition, textureSample]
  rw [floor_nat_div i (textureSizeOf particleCount) hs]
  simp only [Int.cast_natCast]
  have hie : (i : ℚ) - ((i / textureSizeOf particleCount : ℕ) : ℚ)
        * ((textureSizeOf particleCount : ℕ) : ℚ)
      = ((i % textureSizeOf particleCount : ℕ) : ℚ) := by
    have hdm := Nat.div_add_mod i (textureSizeOf particleCount)
    have hcast : ((textureSizeOf particleCount : ℕ) : ℚ)
          * ((i / textureSizeOf particleCount : ℕ) : ℚ)
          + ((i % textureSizeOf particleCount : ℕ) : ℚ) = (i : ℚ) := by
      exact_mod_cast congrArg (fun n : ℕ => (n : ℚ)) hdm
    linarith
  rw [hie, div_mul_cancel₀ _ hsne, div_mul_cancel₀ _ hsne,
    floor_add_half (i % textureSizeOf particleCount),
    floor_add_half (i / textureSizeOf particleCount)]
  rw [Int.toNat_natCast, Int.toNat_natCast,
    min_eq_right (by omega : i % textureSizeOf particleCount ≤ textureSizeOf particleCount - 1),
    min_eq_right (by omega : i / textureSizeOf particleCount ≤ textureSizeOf particleCount - 1)]
  have hidx : i / textureSizeOf particleCount * textureSizeOf particleCount
      + i % textureSizeOf particleCount = i := by
    have hdm := Nat.div_add_mod i (textureSizeOf particleCount)
    have hcomm : i / textureSizeOf particleCount * textureSizeOf particleCount
        = textureSizeOf particleCount * (i / textureSizeOf particleCount) :=
      Nat.mul_comm _ _
    omega
  rw [hidx, createTargetTexture_at_x particleCount targets i hi,
    createTargetTexture_at_y particleCount targets i hi,
    createTargetTexture_at_z particleCount targets i hi]

/-- C6 witness: the round trip and the padding at a concrete texture of two
target points (texture side 2, so cells 8 and beyond are padding). -/
theorem targetTexture_roundtrip_witness :
    ((1 : ℕ) < 2) ∧
    getTargetPosition (textureSizeOf 2) (createTargetTexture 2 (fun n => ⟨n, n + 1, n + 2⟩))
      (1 : ℚ) = ⟨1, 2, 3⟩ ∧
    createTargetTexture 2 (fun n => ⟨n, n + 1, n + 2⟩) 8 = 0 := by
  refine ⟨by norm_num, ?_, ?_⟩
  · have h := (targetTexture_roundtrip_and_padding 2 (fun n => ⟨n, n + 1, n + 2⟩)).1 1
      (by norm_num)
    norm_num at h
    exact h
  · exact (targetTexture_roundtrip_and_padding 2 (fun n => ⟨n, n + 1, n + 2⟩)).2 8
      (by norm_num)

/-- C9: a background pixel (depth 0) is written fully transparent (alpha 0);
for a non-background pixel the shader stores exactly the spec's normal
(background neighbors replaced by the center depth, central differences,
normalize(cross(ddx, ddy)), flipped when z > 0), range-encoded as
n * 0.5 + 0.5 with alpha 1. -/
theorem normalMain_matches_spec (depthTex : ℝ × ℝ → ℝ) (texelSize : ℝ × ℝ) (proj : Mat4)
    (vTexCoord : ℝ × ℝ) :
    (depthTex vTexCoord = 0 → (normalMain depthTex texelSize proj vTexCoord).w = 0) ∧
    (depthTex vTexCoord ≠ 0 →
      normalMain depthTex texelSize proj vTexCoord
        = ⟨(specNormal depthTex texelSize proj vTexCoord).x * 0.5 + 0.5,
           (specNormal depthTex texelSize proj vTexCoord).y * 0.5 + 0.5,
           (specNormal depthTex texelSize proj vTexCoord).z * 0.5 + 0.5, 1⟩) := by
  constructor
  · intro h
    simp only [normalMain, if_pos h]
  · intro h
    simp only [normalMain, specNormal, if_neg h]

/-- C9 witness: the theorem applied to a background pixel and to a uniform
depth-1 field with the identity projection. -/
theorem normalMain_matches_spec_witness :
    (normalMain (fun _ => 0) (0.5, 0.5) 1 (0.5, 0.5)).w = 0 ∧
    normalMain (fun _ => 1) (0.5, 0.5) 1 (0.5, 0.5)
      = ⟨(specNormal (fun _ => 1) (0.5, 0.5) 1 (0.5, 0.5)).x * 0.5 + 0.5,
         (specNormal (fun _ => 1) (0.5, 0.5) 1 (0.5, 0.5)).y * 0.5 + 0.5,
         (specNormal (fun _ => 1) (0.5, 0.5) 1 (0.5, 0.5)).z * 0.5 + 0.5, 1⟩ :=
  ⟨(normalMain_matches_spec (fun _ => 0) (0.5, 0.5) 1 (0.5, 0.5)).1 rfl,
    (normalMain_matches_spec (fun _ => 1) (0.5, 0.5) 1 (0.5, 0.5)).2 (by norm_num)⟩

end Mercury
